import Mathlib

/-!
Shallow embedding of the investor-matching pipeline of the `freemoney`
repository (convex/findInvestors.ts, convex/investors.ts,
convex/lib/summarySchema.ts).  External capabilities (OpenAI calls, the
Convex vector index, document lookup, environment variables) are modelled
as a `World` of pure oracles; JavaScript numbers that are only passed
through (embedding coordinates, similarity scores, min_investment) are
modelled as `Rat` since the pipeline performs no arithmetic on them.
-/

/-- A thrown JavaScript `Error`, identified by its `message` field. -/
structure JsError where
  message : String
deriving DecidableEq, Repr

/-- JS truthiness of an optional string field: `undefined` and the empty
string are falsy (`if (args.twitter_url)` etc.). -/
def jsTruthy : Option String → Bool
  | none => false
  | some s => !(s = "")

/-- JS `String.prototype.includes(pat)`. -/
def jsIncludes (s pat : String) : Bool :=
  decide (pat.toList <:+: s.toList)

/-- JS `String.prototype.trim()`: strip leading and trailing whitespace. -/
def jsTrim (s : String) : String :=
  String.mk (((s.toList.dropWhile Char.isWhitespace).reverse.dropWhile
    Char.isWhitespace).reverse)

/-- JS `String.prototype.slice(0, n)`, counting characters. -/
def jsSlice0 (s : String) (n : Nat) : String :=
  String.mk (s.toList.take n)

/-- JS `a || b` on an optional string `a` with a string default `b`:
`undefined` and `""` fall through to `b`. -/
def jsOrElse (a : Option String) (b : String) : String :=
  match a with
  | none => b
  | some s => if s = "" then b else s

/-- JS template interpolation of a possibly-`undefined` string. -/
def jsInterp : Option String → String
  | none => "undefined"
  | some s => s

/-- The `stage` enum of the founder-summary schema
(`z.enum(['pre-seed', 'seed', 'series-a', 'series-b', 'growth'])`). -/
inductive Stage where
  | preSeed
  | seed
  | seriesA
  | seriesB
  | growth
deriving DecidableEq, Repr

/-- The string value of a `stage` enum member, as interpolated into
prompts (zod enum values). -/
def stageStr : Stage → String
  | .preSeed => "pre-seed"
  | .seed => "seed"
  | .seriesA => "series-a"
  | .seriesB => "series-b"
  | .growth => "growth"

/-- The structured extraction result `FounderSummary`
(convex/lib/summarySchema.ts, full-schema variant). -/
structure FounderSummary where
  summary : String
  key_strengths : List String
  stage : Stage
  traction_highlights : List String
  funding_ask : Option String
deriving DecidableEq, Repr

/-- Declared maximum length of the `summary` field in the
`FounderSummarySchema` (`z.string().min(50).max(800)`). -/
def summaryMaxLength : Nat := 800

/-- The founder-facing arguments of the `findRelevantInvestors` action. -/
structure FounderArgs where
  aboutYou : String
  aboutStartup : String
  selectedIndustries : List String
deriving DecidableEq, Repr

/-- The `dm_open_status` enum of the investors table. -/
inductive DmStatus where
  | open
  | closed
  | unknown
deriving DecidableEq, Repr

/-- A document of the `investors` table (convex schema plus the Convex
system field `_id`, modelled as a `Nat`).  `industries` is optional here
because the pipeline reads it defensively with `investor.industries?.`. -/
structure Investor where
  _id : Nat
  name : String
  firm : Option String
  position : Option String
  industries : Option (List String)
  min_investment : Option Rat
  thesis : Option String
  embedding : List Rat
  dm_open_status : DmStatus
  twitter_url : Option String
  username : Option String
  source : Option String
deriving DecidableEq, Repr

/-- One `{_id, _score}` pair returned by `ctx.vectorSearch`. -/
structure SearchResult where
  _id : Nat
  _score : Rat
deriving DecidableEq, Repr

/-- An investor spread together with its similarity score
(`{...investor, _score: result._score}`). -/
structure ScoredInvestor where
  investor : Investor
  _score : Rat
deriving DecidableEq, Repr

/-- An investor extended with its generated message
(`{...investor, personalizedMessage}`). -/
structure MessagedInvestor where
  scored : ScoredInvestor
  personalizedMessage : String
deriving DecidableEq, Repr

/-- One element of the DM payload handed to the backend. -/
structure DmPayloadItem where
  twitterUrl : String
  message : String
deriving DecidableEq, Repr

/-- The value returned by the `findRelevantInvestors` action. -/
structure PipelineResult where
  summary : FounderSummary
  investors : List MessagedInvestor
  dmPayload : List DmPayloadItem
  totalFound : Nat
deriving DecidableEq, Repr

/-- The request shape of `openai.embeddings.create`. -/
structure EmbeddingRequest where
  model : String
  input : String
  dimensions : Nat
deriving DecidableEq, Repr

/-- Failures the action can surface, tagged by the stage that threw. -/
inductive PipelineError where
  | invalidInput (message : String)
  | configError (message : String)
  | extractionFailed (e : JsError)
  | embeddingFailed (e : JsError)
  | emptyEmbeddingData
  | generationFailed (e : JsError)
deriving DecidableEq, Repr

/-- Counts of external calls made during one run of the action. -/
structure Calls where
  extraction : Nat
  embedding : Nat
  search : Nat
  lookups : Nat
  generation : Nat
deriving DecidableEq, Repr

/-- No external call made. -/
def Calls.zero : Calls := ⟨0, 0, 0, 0, 0⟩

/-- The external world: environment plus the five external capabilities,
each a pure oracle keyed by the exact request the code sends. -/
structure World where
  openaiApiKey : Option String
  generateObject : String → Except JsError FounderSummary
  embeddingsCreate : EmbeddingRequest → Except JsError (List (List Rat))
  vectorSearch : List Rat → Nat → List SearchResult
  getById : Nat → Option Investor
  chatCreate : String → Except JsError (Option String)

/-- The `combinedInput` template string of the second
`findRelevantInvestors` variant. -/
def combinedInput (args : FounderArgs) : String :=
  "\nAbout the Founder:\n" ++ args.aboutYou ++
  "\n\nAbout the Startup:\n" ++ args.aboutStartup ++
  "\n\nIndustry Focus: " ++ String.intercalate ", " args.selectedIndustries ++ "\n"

/-- The prompt handed to the structured-extraction call. -/
def extractionPrompt (args : FounderArgs) : String :=
  "Summarize the following founder and startup information for investor matching:\n\n---BEGIN DATA---\n"
  ++ combinedInput args ++ "\n---END DATA---"

/-- The string the fallback summary is sliced from:
the template literal in the catch branch of the extraction step. -/
def fallbackBase (args : FounderArgs) : String :=
  "Founder with experience in " ++ String.intercalate ", " args.selectedIndustries ++
  " seeking investment. " ++ args.aboutYou ++ " " ++ args.aboutStartup

/-- The deterministic fallback summary synthesized when schema validation
fails (`.slice(0, 500)` on the template string, fixed placeholder lists,
stage `seed`). -/
def fallbackSummary (args : FounderArgs) : FounderSummary where
  summary := jsSlice0 (fallbackBase args) 500
  key_strengths := ["Domain expertise", "Technical skills", "Market understanding"]
  stage := .seed
  traction_highlights := ["Building product", "Early customer interest"]
  funding_ask := some "Seeking investment for growth"

/-- Step 1 with its try/catch: a schema-validation failure (detected by
`error.message.includes('did not match schema')`) is replaced by the
fallback summary; any other error is re-thrown. -/
def extractStep (w : World) (args : FounderArgs) : Except JsError FounderSummary :=
  match w.generateObject (extractionPrompt args) with
  | .ok s => .ok s
  | .error e =>
    if jsIncludes e.message "did not match schema" then .ok (fallbackSummary args)
    else .error e

/-- The `embeddingText` template built from the founder summary. -/
def embeddingText (fs : FounderSummary) (selectedIndustries : List String) : String :=
  "\n" ++ fs.summary ++
  "\nKey strengths: " ++ String.intercalate ", " fs.key_strengths ++
  "\nStage: " ++ stageStr fs.stage ++
  "\nTraction: " ++ String.intercalate ", " fs.traction_highlights ++
  "\n" ++ (match fs.funding_ask with
           | some f => "Funding ask: " ++ f
           | none => "") ++
  "\nIndustries: " ++ String.intercalate ", " selectedIndustries ++ "\n"

/-- Step 2: `openai.embeddings.create({model, input: text.trim(), dimensions: 1024})`
followed by `embeddingResponse.data[0].embedding`.  The returned vector is
used exactly as the provider sent it; no length validation is performed. -/
def embedStep (w : World) (text : String) : Except PipelineError (List Rat) :=
  match w.embeddingsCreate ⟨"text-embedding-3-large", jsTrim text, 1024⟩ with
  | .error e => .error (.embeddingFailed e)
  | .ok data =>
    match data.head? with
    | none => .error .emptyEmbeddingData
    | some v => .ok v

/-- `investor.industries?.some((ind) => args.selectedIndustries.includes(ind))`,
coerced to a boolean by the surrounding `if`. -/
def hasMatchingIndustry (selectedIndustries : List String) (inv : Investor) : Bool :=
  match inv.industries with
  | none => false
  | some inds => inds.any (fun ind => selectedIndustries.contains ind)

/-- Step 4 loop: hydrate each search result through `getById`, drop
missing documents, keep industry matches, preserving search order. -/
def investorsWithData (db : Nat → Option Investor) (selectedIndustries : List String) :
    List SearchResult → List ScoredInvestor
  | [] => []
  | r :: rest =>
    match db r._id with
    | none => investorsWithData db selectedIndustries rest
    | some investor =>
      if hasMatchingIndustry selectedIndustries investor then
        ⟨investor, r._score⟩ :: investorsWithData db selectedIndustries rest
      else
        investorsWithData db selectedIndustries rest

/-- JS `investor.name.split(' ')[0]` — `split` always yields a non-empty
array, so index 0 is total. -/
def firstNameToken (name : String) : String :=
  (name.splitOn " ").headD ""

/-- The message-generation prompt of the second variant, built per
candidate from the founder summary and the investor profile. -/
def messagePrompt (fs : FounderSummary) (x : ScoredInvestor) : String :=
  let investor := x.investor
  let firstName := (firstNameToken investor.name).toLower
  "\nYou're writing a high-converting cold DM to an investor. Investors get hundreds of pitches daily and only respond to messages that immediately demonstrate relevance, momentum, and opportunity.\n\nSTARTUP DATA:\nStage: "
  ++ stageStr fs.stage
  ++ "\nTraction: " ++ String.intercalate ", " fs.traction_highlights
  ++ "\n" ++ (match fs.funding_ask with
              | some f => "Funding Ask: " ++ f
              | none => "")
  ++ "\nKey Differentiators: " ++ String.intercalate ", " fs.key_strengths
  ++ "\nFull Context: " ++ fs.summary
  ++ "\n\nINVESTOR PROFILE:\nName: " ++ investor.name
  ++ " (use \"" ++ firstName ++ "\" in the message)"
  ++ "\nFirm: " ++ jsOrElse investor.firm "Angel Investor"
  ++ "\nInvestment Focus: " ++ String.intercalate ", " (investor.industries.getD [])
  ++ "\n" ++ (match investor.thesis with
              | some t => if t = "" then "" else "Investment Thesis: " ++ t
              | none => "")
  ++ "\n\nWrite a 2-3 sentence DM following this proven cold outreach structure:\n\n1. **RELEVANCE HOOK**: Start with \"hey "
  ++ firstName
  ++ ",\" then immediately connect to their specific investment focus/thesis with a concrete detail about your startup that would interest them\n\n2. **MOMENTUM/PROOF**: Lead with your strongest traction metric or achievement that demonstrates the startup is gaining momentum (specific numbers, growth rates, customer wins, etc.)\n\n3. **CLEAR ASK**: End with a specific, low-friction next step (quick call, deck review, coffee if in same city)\n\nCRITICAL REQUIREMENTS:\n- Lead with WHAT (the startup opportunity) not WHO (founder background)\n- Use specific metrics/achievements, not vague claims\n- Show you researched them specifically - reference their focus area or a portfolio company\n- Demonstrate momentum/growth/traction immediately\n- Make it scannable - short sentences, key info upfront\n- Professional but conversational tone\n- NO generic language - every word should be specific to this investor and startup\n- Focus on what THEY care about (ROI potential, market size, competitive advantage)\n"

/-- `messageResponse.choices[0].message.content?.trim() || ''`: a null
content becomes the empty string, otherwise the content is trimmed (an
all-whitespace content also ends as the empty string). -/
def personalizedMessageOfContent : Option String → String
  | none => ""
  | some s => jsTrim s

/-- One branch of the `Promise.all` fan-out: build the prompt, invoke the
chat-completion call, extend the candidate with the message.  There is no
try/catch here: a rejected call rejects the branch. -/
def composeOne (w : World) (fs : FounderSummary) (x : ScoredInvestor) :
    Except JsError MessagedInvestor :=
  match w.chatCreate (messagePrompt fs x) with
  | .error e => .error e
  | .ok content => .ok ⟨x, personalizedMessageOfContent content⟩

/-- `Promise.all` over already-settled branches: succeeds with the list of
values in input position when every branch succeeded, otherwise rejects
with a rejection (determinized here to the first in input order). -/
def promiseAll : List (Except JsError α) → Except JsError (List α)
  | [] => .ok []
  | .error e :: _ => .error e
  | .ok a :: rest =>
    match promiseAll rest with
    | .error e => .error e
    | .ok l => .ok (a :: l)

/-- Step 5: `Promise.all(topInvestors.map(async (investor) => ...))`. -/
def investorsWithMessages (w : World) (fs : FounderSummary)
    (topInvestors : List ScoredInvestor) : Except JsError (List MessagedInvestor) :=
  promiseAll (topInvestors.map (composeOne w fs))

/-- The concurrency model of the fan-out/fan-in: branch `i` computes a
value independently of every other branch; completions arrive in an
arbitrary `order` and each completion stores its value at its own input
position in a pre-sized container. -/
def fanOutCollect (n : Nat) (branch : Nat → α) (order : List Nat) : List (Option α) :=
  order.foldl (fun acc i => acc.set i (some (branch i))) (List.replicate n none)

/-- The DM payload item built for one messaged investor
(`investor.twitter_url || `URL from username``). -/
def dmPayloadItem (m : MessagedInvestor) : DmPayloadItem :=
  ⟨jsOrElse m.scored.investor.twitter_url
      ("https://twitter.com/" ++ jsInterp m.scored.investor.username),
   m.personalizedMessage⟩

/-- Stages 2-5 of the handler, run on a founder summary (reached exactly
when step 1 produced a summary, so the extraction call count is 1). -/
def afterSummary (w : World) (args : FounderArgs) (founderSummary : FounderSummary) :
    Except PipelineError PipelineResult × Calls :=
  match embedStep w (embeddingText founderSummary args.selectedIndustries) with
  | .error e => (.error e, ⟨1, 1, 0, 0, 0⟩)
  | .ok founderEmbedding =>
    let searchResults := w.vectorSearch founderEmbedding 100
    let hydrated := investorsWithData w.getById args.selectedIndustries searchResults
    let topInvestors := hydrated.take 3
    match investorsWithMessages w founderSummary topInvestors with
    | .error e =>
      (.error (.generationFailed e),
       ⟨1, 1, 1, searchResults.length, topInvestors.length⟩)
    | .ok messaged =>
      (.ok ⟨founderSummary, messaged, messaged.map dmPayloadItem, messaged.length⟩,
       ⟨1, 1, 1, searchResults.length, topInvestors.length⟩)

/-- The `findRelevantInvestors` action handler (second variant of
convex/findInvestors.ts), paired with the number of external calls each
run performs. -/
def findRelevantInvestors (w : World) (args : FounderArgs) :
    Except PipelineError PipelineResult × Calls :=
  if jsTrim args.aboutYou = "" ∨ jsTrim args.aboutStartup = "" then
    (.error (.invalidInput "Both 'about you' and 'about startup' fields are required"),
     Calls.zero)
  else if args.selectedIndustries.length = 0 then
    (.error (.invalidInput "At least one industry must be selected"), Calls.zero)
  else if !(jsTruthy w.openaiApiKey) then
    (.error (.configError "OPENAI_API_KEY not configured in Convex environment"),
     Calls.zero)
  else
    match extractStep w args with
    | .error e => (.error (.extractionFailed e), ⟨1, 0, 0, 0, 0⟩)
    | .ok founderSummary => afterSummary w args founderSummary

/-- The arguments of the `upsertByTwitter` mutation (convex/investors.ts). -/
structure UpsertArgs where
  twitter_url : Option String
  username : Option String
  name : String
  firm : Option String
  position : Option String
  industries : List String
  min_investment : Option Rat
  thesis : Option String
  dm_open_status : DmStatus
  embedding : List Rat
  source : Option String
deriving DecidableEq, Repr

/-- The `investors` table: documents in creation order (the order an
eq-constrained index scan followed by `.first()` observes), plus the next
fresh document id. -/
structure InvestorsTable where
  docs : List Investor
  nextId : Nat
deriving DecidableEq, Repr

/-- `.withIndex('byTwitter', q => q.eq('twitter_url', t)).first()`. -/
def findByTwitter (docs : List Investor) (t : String) : Option Investor :=
  docs.find? (fun d => d.twitter_url == some t)

/-- `.withIndex('byUsername', q => q.eq('username', u)).first()`. -/
def findByUsername (docs : List Investor) (u : String) : Option Investor :=
  docs.find? (fun d => d.username == some u)

/-- The first JS block of `upsertByTwitter`'s lookup:
`if (args.twitter_url) { existing = ...byTwitter...first() }`. -/
def lookupByUrlArg (docs : List Investor) (args : UpsertArgs) : Option Investor :=
  match args.twitter_url with
  | some t => if t = "" then none else findByTwitter docs t
  | none => none

/-- The second JS block: `if (!existing && args.username)` — look up the
URL constructed from the username, then the username itself. -/
def lookupByUsernameArg (docs : List Investor) (args : UpsertArgs) : Option Investor :=
  match args.username with
  | some u =>
    if u = "" then none
    else
      match findByTwitter docs ("https://twitter.com/" ++ u) with
      | some d => some d
      | none => findByUsername docs u
  | none => none

/-- The `existing` lookup of `upsertByTwitter`: a truthy `twitter_url` is
looked up first; if that finds nothing, the truthy-`username` lookups
run. -/
def lookupExisting (docs : List Investor) (args : UpsertArgs) : Option Investor :=
  match lookupByUrlArg docs args with
  | some d => some d
  | none => lookupByUsernameArg docs args

/-- `ctx.db.patch(existing._id, {...})`: every listed field is overwritten
with the argument value (an absent optional argument clears the field). -/
def patchInvestor (d : Investor) (args : UpsertArgs) : Investor :=
  { d with
    name := args.name
    firm := args.firm
    position := args.position
    industries := some args.industries
    min_investment := args.min_investment
    thesis := args.thesis
    dm_open_status := args.dm_open_status
    embedding := args.embedding
    source := args.source
    username := args.username
    twitter_url := args.twitter_url }

/-- `ctx.db.insert('investors', {...})` with a fresh id. -/
def insertInvestor (freshId : Nat) (args : UpsertArgs) : Investor :=
  { _id := freshId
    name := args.name
    firm := args.firm
    position := args.position
    industries := some args.industries
    min_investment := args.min_investment
    thesis := args.thesis
    dm_open_status := args.dm_open_status
    embedding := args.embedding
    twitter_url := args.twitter_url
    username := args.username
    source := args.source }

/-- The `upsertByTwitter` mutation: patch the found document and return
its id, else insert a new document and return the fresh id. -/
def upsertByTwitter (st : InvestorsTable) (args : UpsertArgs) : InvestorsTable × Nat :=
  match lookupExisting st.docs args with
  | some existing =>
    (⟨st.docs.map (fun d => if d._id = existing._id then patchInvestor d args else d),
      st.nextId⟩,
     existing._id)
  | none =>
    (⟨st.docs ++ [insertInvestor st.nextId args], st.nextId + 1⟩, st.nextId)

/-- The claim's antecedent for C10, read literally: the call's
`twitter_url` matches an existing record, or its `username` matches one
directly or via the URL constructed from it. -/
def claimMatches (docs : List Investor) (args : UpsertArgs) : Prop :=
  (∃ t, args.twitter_url = some t ∧ (findByTwitter docs t).isSome)
  ∨ (∃ u, args.username = some u ∧
      ((findByTwitter docs ("https://twitter.com/" ++ u)).isSome
        ∨ (findByUsername docs u).isSome))

/-- The antecedent adjusted for JS truthiness: only a non-empty
`twitter_url` or a non-empty `username` is used for matching. -/
def truthyMatches (docs : List Investor) (args : UpsertArgs) : Prop :=
  (∃ t, args.twitter_url = some t ∧ t ≠ "" ∧ (findByTwitter docs t).isSome)
  ∨ (∃ u, args.username = some u ∧ u ≠ "" ∧
      ((findByTwitter docs ("https://twitter.com/" ++ u)).isSome
        ∨ (findByUsername docs u).isSome))

/-- `ctx.db.get` over a concrete table: the document whose system id is
`i`. -/
def dbOf (docs : List Investor) (i : Nat) : Option Investor :=
  docs.find? (fun d => d._id == i)

/-- A concrete founder summary used in witness scenarios. -/
def sOK : FounderSummary :=
  ⟨"Analytics SaaS with strong traction and an experienced founding team.",
   ["ML expertise", "B2B sales"], .seed, ["50k MRR", "20 customers"], some "raising 1M"⟩

/-- A concrete matching investor (industry `AI`). -/
def invA : Investor :=
  ⟨0, "Alice Ang", some "Fund One", none, some ["AI"], none, some "AI infrastructure",
   [], .open, some "https://twitter.com/alice", some "alice", none⟩

/-- A concrete non-matching investor (industry `Consumer`). -/
def invB : Investor :=
  ⟨1, "Bob Iger", none, none, some ["Consumer"], none, none, [], .open,
   some "https://twitter.com/bob", some "bob", none⟩

/-- A concrete investor with an absent `industries` field. -/
def invC : Investor :=
  ⟨2, "Cara Cole", none, none, none, none, none, [], .open, none, some "cara", none⟩

/-- A concrete instance of the investors table used by the witness world. -/
def demoDocs : List Investor := [invA, invB, invC]

/-- Concrete similarity-search results; id 5 has no document. -/
def demoResults : List SearchResult :=
  [⟨0, (9 : Rat)/10⟩, ⟨1, (8 : Rat)/10⟩, ⟨2, (7 : Rat)/10⟩, ⟨5, (6 : Rat)/10⟩]

/-- A fully healthy world: every oracle answers. -/
def wHappy : World where
  openaiApiKey := some "sk-test"
  generateObject := fun _ => .ok sOK
  embeddingsCreate := fun _ => .ok [[(1 : Rat), 2]]
  vectorSearch := fun _ _ => demoResults
  getById := dbOf demoDocs
  chatCreate := fun _ => .ok (some " hey alice, quick note. ")

/-- A world whose extraction call fails with a non-schema error. -/
def wQuota : World :=
  { wHappy with generateObject := fun _ => .error ⟨"429 insufficient quota"⟩ }

/-- A world whose extraction call fails schema validation. -/
def wSchemaFail : World :=
  { wHappy with generateObject := fun _ => .error ⟨"response did not match schema"⟩ }

/-- A world whose embedding provider returns a 3-dimensional vector. -/
def wShortVec : World :=
  { wHappy with embeddingsCreate := fun _ => .ok [[(1 : Rat), 2, 3]] }

/-- A world whose chat-completion call rejects. -/
def wGenFail : World :=
  { wHappy with chatCreate := fun _ => .error ⟨"network error"⟩ }

/-- A world whose chat-completion call returns a null content. -/
def wNullContent : World :=
  { wHappy with chatCreate := fun _ => .ok none }

/-- A concrete valid founder input. -/
def argsOK : FounderArgs :=
  ⟨"Ex-Google engineer, 10 years ML", "B2B analytics SaaS, 50k MRR", ["AI"]⟩

/-- A concrete valid founder input whose `about_you` is 600 characters. -/
def argsLong : FounderArgs := ⟨String.mk (List.replicate 600 'a'), "b", ["AI"]⟩

/-- A concrete input whose `about_you` trims to empty. -/
def argsEmptyYou : FounderArgs := ⟨"   ", "startup", ["AI"]⟩

/-- A stored investor whose `twitter_url` is the empty string. -/
def invDup : Investor :=
  ⟨0, "Dup", none, none, some ["AI"], none, none, [], .open, some "", none, none⟩

/-- A one-document table holding `invDup`. -/
def stDup : InvestorsTable := ⟨[invDup], 1⟩

/-- An upsert call whose `twitter_url` equals `invDup`'s (empty string). -/
def argsDup : UpsertArgs :=
  ⟨some "", none, "Dup", none, none, ["AI"], none, none, .open, [], none⟩

/-- A one-document table holding `invA`. -/
def stA : InvestorsTable := ⟨[invA], 1⟩

/-- An upsert call whose `twitter_url` matches `invA`'s. -/
def argsUpA : UpsertArgs :=
  ⟨some "https://twitter.com/alice", some "alice", "Alice A.", some "Fund One", none,
   ["AI", "SaaS"], none, none, .open, [], none⟩

/-- The code's boolean industry test agrees with the set-intersection
reading: some industry of the record is among the selected ones. -/
theorem hasMatchingIndustry_iff (selected : List String) (inv : Investor) :
    hasMatchingIndustry selected inv = true ↔
      ∃ ind, ind ∈ inv.industries.getD [] ∧ ind ∈ selected := by
  cases h : inv.industries with
  | none => simp [hasMatchingIndustry, h]
  | some inds =>
    simp only [hasMatchingIndustry, h, Option.getD_some, List.any_eq_true]
    constructor
    · rintro ⟨x, hx, hc⟩
      rcases List.contains_iff_exists_mem_beq.mp hc with ⟨a, ha, hba⟩
      exact ⟨x, hx, (beq_iff_eq.mp hba) ▸ ha⟩
    · rintro ⟨x, hx, hs⟩
      exact ⟨x, hx, List.contains_iff_exists_mem_beq.mpr ⟨x, hs, beq_iff_eq.mpr rfl⟩⟩

/-- Every element of the hydrated-and-filtered list passed the industry
test. -/
theorem mem_iwd_matching (db : Nat → Option Investor) (selected : List String) :
    ∀ (results : List SearchResult) (x : ScoredInvestor),
      x ∈ investorsWithData db selected results →
      hasMatchingIndustry selected x.investor = true := by
  intro results
  induction results with
  | nil => intro x hx; simp [investorsWithData] at hx
  | cons r rest ih =>
    intro x hx
    simp only [investorsWithData] at hx
    split at hx
    · exact ih x hx
    · rename_i inv hd
      split at hx
      · rename_i hm
        rcases List.mem_cons.mp hx with rfl | hx'
        · exact hm
        · exact ih x hx'
      · exact ih x hx

/-- Every element of the hydrated-and-filtered list is the very document
the lookup returned for its own id. -/
theorem mem_iwd_db (db : Nat → Option Investor) (selected : List String)
    (hdb : ∀ i inv, db i = some inv → inv._id = i) :
    ∀ (results : List SearchResult) (x : ScoredInvestor),
      x ∈ investorsWithData db selected results →
      db x.investor._id = some x.investor := by
  intro results
  induction results with
  | nil => intro x hx; simp [investorsWithData] at hx
  | cons r rest ih =>
    intro x hx
    simp only [investorsWithData] at hx
    split at hx
    · exact ih x hx
    · rename_i inv hd
      split at hx
      · rcases List.mem_cons.mp hx with rfl | hx'
        · have hid : inv._id = r._id := hdb _ _ hd
          simpa [hid] using hd
        · exact ih x hx'
      · exact ih x hx

/-- Hydration and filtering keep ids in search order: the output id list
is a sublist of the search-result id list. -/
theorem iwd_map_id_sublist (db : Nat → Option Investor) (selected : List String)
    (hdb : ∀ i inv, db i = some inv → inv._id = i) :
    ∀ results : List SearchResult,
      ((investorsWithData db selected results).map (fun x => x.investor._id)).Sublist
        (results.map (fun r => r._id)) := by
  intro results
  induction results with
  | nil => simp [investorsWithData]
  | cons r rest ih =>
    simp only [investorsWithData, List.map]
    split
    · exact ih.cons _
    · rename_i inv hd
      split
      · simp only [List.map]
        rw [hdb _ _ hd]
        exact ih.cons₂ _
      · exact ih.cons _

/-- A concrete `ctx.db.get` model is consistent: the returned document
carries the requested id. -/
theorem dbOf_consistent (docs : List Investor) :
    ∀ i inv, dbOf docs i = some inv → inv._id = i := by
  intro i inv h
  simp only [dbOf] at h
  have hp := List.find?_some h
  exact eq_of_beq hp

/-- C6: every candidate in the retriever's output (after hydration,
filtering and truncation) has at least one industry among the selected
ones, and a hydrated record without such an industry is absent from the
output. -/
theorem retrieval_post_filter (db : Nat → Option Investor) (selected : List String)
    (results : List SearchResult) (hsel : selected ≠ []) :
    (∀ x ∈ (investorsWithData db selected results).take 3,
        ∃ ind, ind ∈ x.investor.industries.getD [] ∧ ind ∈ selected) ∧
    (∀ inv s, (¬ ∃ ind, ind ∈ (Investor.industries inv).getD [] ∧ ind ∈ selected) →
        (⟨inv, s⟩ : ScoredInvestor) ∉ (investorsWithData db selected results).take 3) := by
  constructor
  · intro x hx
    exact (hasMatchingIndustry_iff selected x.investor).mp
      (mem_iwd_matching db selected results x (List.mem_of_mem_take hx))
  · intro inv s hno hmem
    exact hno ((hasMatchingIndustry_iff selected inv).mp
      (mem_iwd_matching db selected results ⟨inv, s⟩ (List.mem_of_mem_take hmem)))

/-- C6 witness: the filter facts hold on the concrete demo retrieval. -/
theorem retrieval_post_filter_witness :
    (["AI"] : List String) ≠ [] ∧
    ((∀ x ∈ (investorsWithData (dbOf demoDocs) ["AI"] demoResults).take 3,
        ∃ ind, ind ∈ x.investor.industries.getD [] ∧ ind ∈ ["AI"]) ∧
     (∀ inv s, (¬ ∃ ind, ind ∈ (Investor.industries inv).getD [] ∧ ind ∈ ["AI"]) →
        (⟨inv, s⟩ : ScoredInvestor) ∉ (investorsWithData (dbOf demoDocs) ["AI"] demoResults).take 3)) :=
  ⟨by decide, retrieval_post_filter (dbOf demoDocs) ["AI"] demoResults (by decide)⟩

/-- C7: the retriever's output is a stable sub-sequence of the raw
similarity-search order, and an id missing at hydration time is dropped
(it never appears in the output) rather than raising an error. -/
theorem retrieval_order_stable (db : Nat → Option Investor) (selected : List String)
    (results : List SearchResult)
    (hdb : ∀ i inv, db i = some inv → inv._id = i) :
    (((investorsWithData db selected results).take 3).map (fun x => x.investor._id)).Sublist
        (results.map (fun r => r._id)) ∧
    (∀ i, db i = none →
        i ∉ ((investorsWithData db selected results).take 3).map (fun x => x.investor._id)) := by
  constructor
  · exact ((List.take_sublist _ _).map _).trans (iwd_map_id_sublist db selected hdb results)
  · intro i hi hmem
    rcases List.mem_map.mp hmem with ⟨x, hx, rfl⟩
    have hsome := mem_iwd_db db selected hdb results x (List.mem_of_mem_take hx)
    rw [hi] at hsome
    cases hsome

/-- C7 witness: order stability on the concrete demo retrieval. -/
theorem retrieval_order_stable_witness :
    (∀ i inv, dbOf demoDocs i = some inv → inv._id = i) ∧
    ((((investorsWithData (dbOf demoDocs) ["AI"] demoResults).take 3).map
        (fun x => x.investor._id)).Sublist (demoResults.map (fun r => r._id)) ∧
     (∀ i, dbOf demoDocs i = none →
        i ∉ ((investorsWithData (dbOf demoDocs) ["AI"] demoResults).take 3).map
              (fun x => x.investor._id))) :=
  ⟨dbOf_consistent demoDocs,
   retrieval_order_stable (dbOf demoDocs) ["AI"] demoResults (dbOf_consistent demoDocs)⟩

/-- C9: a record with an empty or absent industries array never passes the
intersection test (which is total: no error is raised) and is excluded
from the retriever's output. -/
theorem empty_industries_excluded (selected : List String) (inv : Investor)
    (hsel : selected ≠ [])
    (hempty : inv.industries = none ∨ inv.industries = some []) :
    hasMatchingIndustry selected inv = false ∧
    ∀ (db : Nat → Option Investor) (results : List SearchResult) (s : Rat),
      (⟨inv, s⟩ : ScoredInvestor) ∉ (investorsWithData db selected results).take 3 := by
  have hfalse : hasMatchingIndustry selected inv = false := by
    rcases hempty with h | h <;> simp [hasMatchingIndustry, h]
  refine ⟨hfalse, ?_⟩
  intro db results s hmem
  have htrue := mem_iwd_matching db selected results ⟨inv, s⟩ (List.mem_of_mem_take hmem)
  rw [hfalse] at htrue
  cases htrue

/-- C9 witness: the exclusion facts hold for the concrete record with an
absent industries field. -/
theorem empty_industries_excluded_witness :
    ((["AI"] : List String) ≠ [] ∧ (invC.industries = none ∨ invC.industries = some [])) ∧
    (hasMatchingIndustry ["AI"] invC = false ∧
     ∀ (db : Nat → Option Investor) (results : List SearchResult) (s : Rat),
       (⟨invC, s⟩ : ScoredInvestor) ∉ (investorsWithData db ["AI"] results).take 3) :=
  ⟨⟨by decide, Or.inl rfl⟩,
   empty_industries_excluded ["AI"] invC (by decide) (Or.inl rfl)⟩

/-- `Promise.all` of all-fulfilled branches: the settled list maps back
through `Except.ok` exactly to the input position by position. -/
theorem composeAll_spec (w : World) (fs : FounderSummary) :
    ∀ cands : List ScoredInvestor,
      (∀ c ∈ cands, (composeOne w fs c).isOk = true) →
      ∃ out, investorsWithMessages w fs cands = .ok out ∧
        cands.map (composeOne w fs) = out.map Except.ok := by
  intro cands
  induction cands with
  | nil => intro h; exact ⟨[], rfl, rfl⟩
  | cons c tl ih =>
    intro h
    have hc := h c (List.mem_cons_self c tl)
    cases hok : composeOne w fs c with
    | error e => rw [hok] at hc; simp [Except.isOk, Except.toBool] at hc
    | ok m =>
      rcases ih (fun x hx => h x (List.mem_cons_of_mem _ hx)) with ⟨out, hout, hmap⟩
      refine ⟨m :: out, ?_, ?_⟩
      · simp only [investorsWithMessages, List.map] at hout ⊢
        simp only [promiseAll, hok, hout]
      · simp only [List.map, hok, hmap]

/-- Positional content of an all-fulfilled `Promise.all` over the
composer: position `i` of the output is candidate `i` extended with the
message derived from that candidate's own chat-completion content. -/
theorem composeAll_positions (w : World) (fs : FounderSummary)
    (cands : List ScoredInvestor)
    (h : ∀ c ∈ cands, (composeOne w fs c).isOk = true) :
    ∃ out, investorsWithMessages w fs cands = .ok out ∧
      out.length = cands.length ∧
      ∀ (i : Nat) (c : ScoredInvestor), cands[i]? = some c →
        ∃ content, w.chatCreate (messagePrompt fs c) = .ok content ∧
          out[i]? = some (⟨c, personalizedMessageOfContent content⟩ : MessagedInvestor) := by
  rcases composeAll_spec w fs cands h with ⟨out, hok, hmap⟩
  have hlen : out.length = cands.length := by
    have := congrArg List.length hmap
    simpa using this.symm
  refine ⟨out, hok, hlen, ?_⟩
  intro i c hc
  have hmi := congrArg (fun l => l[i]?) hmap
  simp only [List.getElem?_map, hc] at hmi
  cases ho : out[i]? with
  | none => rw [ho] at hmi; simp at hmi
  | some m =>
    rw [ho] at hmi
    simp only [Option.map_some'] at hmi
    have hcm : composeOne w fs c = .ok m := Option.some.inj hmi
    cases hch : w.chatCreate (messagePrompt fs c) with
    | error e =>
      simp only [composeOne, hch] at hcm
      exact Except.noConfusion hcm
    | ok content =>
      simp only [composeOne, hch] at hcm
      refine ⟨content, rfl, ?_⟩
      rw [← Except.ok.inj hcm]

/-- Folding completions into the positional container: position `j` holds
branch `j`'s value once `j`'s completion has been processed, and is
untouched otherwise. -/
theorem fanOut_foldl_getElem? (branch : Nat → α) :
    ∀ (order : List Nat) (acc : List (Option α)) (j : Nat),
      (order.foldl (fun a i => a.set i (some (branch i))) acc)[j]?
        = if j ∈ order ∧ j < acc.length then some (some (branch j)) else acc[j]? := by
  intro order
  induction order with
  | nil => intro acc j; simp
  | cons i rest ih =>
    intro acc j
    simp only [List.foldl]
    rw [ih, List.length_set]
    by_cases hjr : j ∈ rest ∧ j < acc.length
    · rw [if_pos hjr, if_pos ⟨List.mem_cons_of_mem i hjr.1, hjr.2⟩]
    · rw [if_neg hjr, List.getElem?_set]
      by_cases hij : i = j
      · subst hij
        by_cases hlen : i < acc.length
        · rw [if_pos rfl, if_pos hlen, if_pos ⟨List.mem_cons_self i rest, hlen⟩]
        · rw [if_pos rfl, if_neg hlen, if_neg (fun hcon => hlen hcon.2)]
          exact (List.getElem?_eq_none (Nat.le_of_not_lt hlen)).symm
      · rw [if_neg hij]
        have hnot : ¬(j ∈ i :: rest ∧ j < acc.length) := by
          rintro ⟨hm, hl⟩
          rcases List.mem_cons.mp hm with rfl | hmr
          · exact hij rfl
          · exact hjr ⟨hmr, hl⟩
        rw [if_neg hnot]

/-- Positional fan-in is schedule independent: processing the completions
in any order covering all branches yields the same container as reading
the branches off in input order. -/
theorem fanOutCollect_order_irrelevant (n : Nat) (branch : Nat → α) (order : List Nat)
    (hord : ∀ j, j < n ↔ j ∈ order) :
    fanOutCollect n branch order = (List.range n).map (fun i => some (branch i)) := by
  apply List.ext_getElem?
  intro j
  simp only [fanOutCollect]
  rw [fanOut_foldl_getElem?, List.length_replicate]
  by_cases hj : j < n
  · rw [if_pos ⟨(hord j).mp hj, hj⟩, List.getElem?_map, List.getElem?_range hj]
    rfl
  · rw [if_neg (fun hcon => hj hcon.2), List.getElem?_replicate, if_neg hj,
      List.getElem?_map,
      List.getElem?_eq_none (by simpa [List.length_range] using Nat.le_of_not_lt hj)]
    rfl

/-- C8: when every per-candidate generation call returns, the composer's
output has the same length as its input and position `i` is input
candidate `i` extended with its own personalized message; collecting the
concurrent completions positionally gives this same output for every
completion order. -/
theorem composer_positional_order (w : World) (fs : FounderSummary)
    (cands : List ScoredInvestor)
    (h : ∀ c ∈ cands, (composeOne w fs c).isOk = true) :
    ∃ out, investorsWithMessages w fs cands = .ok out ∧
      out.length = cands.length ∧
      (∀ (i : Nat) (c : ScoredInvestor), cands[i]? = some c →
        ∃ m, out[i]? = some m ∧ composeOne w fs c = .ok m ∧ m.scored = c) ∧
      (∀ order : List Nat, (∀ j, j < cands.length ↔ j ∈ order) →
        fanOutCollect cands.length
            (fun i => (cands[i]?).bind (fun c => (composeOne w fs c).toOption)) order
          = out.map (fun m => some (some m))) := by
  rcases composeAll_positions w fs cands h with ⟨out, hok, hlen, hpos⟩
  refine ⟨out, hok, hlen, ?_, ?_⟩
  · intro i c hc
    rcases hpos i c hc with ⟨content, hch, ho⟩
    refine ⟨⟨c, personalizedMessageOfContent content⟩, ho, ?_, rfl⟩
    simp only [composeOne, hch]
  · intro order hord
    rw [fanOutCollect_order_irrelevant _ _ order hord]
    apply List.ext_getElem?
    intro j
    rw [List.getElem?_map, List.getElem?_map]
    by_cases hj : j < cands.length
    · rw [List.getElem?_range hj]
      obtain ⟨c, hc⟩ : ∃ c, cands[j]? = some c :=
        ⟨cands[j], (List.getElem?_eq_getElem hj)⟩
      rcases hpos j c hc with ⟨content, hch, ho⟩
      rw [ho]
      simp only [Option.map_some', hc, Option.some_bind, composeOne, hch, Except.toOption]
    · rw [List.getElem?_eq_none (by simpa [List.length_range] using Nat.le_of_not_lt hj),
        List.getElem?_eq_none (by rw [hlen]; exact Nat.le_of_not_lt hj)]
      rfl

/-- C8 witness: the composer facts hold on a concrete two-candidate
batch in the healthy world. -/
theorem composer_positional_order_witness :
    (∀ c ∈ [(⟨invA, (1 : Rat)⟩ : ScoredInvestor), ⟨invB, (1 : Rat)⟩],
        (composeOne wHappy sOK c).isOk = true) ∧
    (∃ out, investorsWithMessages wHappy sOK [⟨invA, (1 : Rat)⟩, ⟨invB, (1 : Rat)⟩] = .ok out ∧
      out.length = ([(⟨invA, (1 : Rat)⟩ : ScoredInvestor), ⟨invB, (1 : Rat)⟩]).length ∧
      (∀ (i : Nat) (c : ScoredInvestor),
          ([(⟨invA, (1 : Rat)⟩ : ScoredInvestor), ⟨invB, (1 : Rat)⟩])[i]? = some c →
        ∃ m, out[i]? = some m ∧ composeOne wHappy sOK c = .ok m ∧ m.scored = c) ∧
      (∀ order : List Nat,
          (∀ j, j < ([(⟨invA, (1 : Rat)⟩ : ScoredInvestor), ⟨invB, (1 : Rat)⟩]).length ↔ j ∈ order) →
        fanOutCollect ([(⟨invA, (1 : Rat)⟩ : ScoredInvestor), ⟨invB, (1 : Rat)⟩]).length
            (fun i => (([(⟨invA, (1 : Rat)⟩ : ScoredInvestor), ⟨invB, (1 : Rat)⟩])[i]?).bind
              (fun c => (composeOne wHappy sOK c).toOption)) order
          = out.map (fun m => some (some m)))) :=
  ⟨by decide,
   composer_positional_order wHappy sOK [⟨invA, (1 : Rat)⟩, ⟨invB, (1 : Rat)⟩] (by decide)⟩

/-- C1 counterexample: a batch with a single candidate whose generation
call rejects.  The claim demands the candidate be kept with an empty
`personalized_message`; the code has no per-branch try/catch, so the
rejection aborts the whole `Promise.all` instead. -/
theorem composer_failure_aborts_counterexample :
    investorsWithMessages wGenFail sOK [⟨invA, (1 : Rat)⟩] = .error ⟨"network error"⟩ ∧
    investorsWithMessages wGenFail sOK [⟨invA, (1 : Rat)⟩] ≠
      .ok [⟨⟨invA, (1 : Rat)⟩, ""⟩] := by
  refine ⟨rfl, ?_⟩
  intro hcon
  exact Except.noConfusion hcon

/-- C1 (amended): when every per-candidate generation call returns
(possibly with null or empty content), a candidate whose call returned
empty content gets the empty string as its message, is not dropped, and
the other candidates' messages are each computed from their own call
alone; a rejected call, by contrast, rejects the whole batch (see the
counterexample). -/
theorem composer_empty_content_isolated (w : World) (fs : FounderSummary)
    (cands : List ScoredInvestor)
    (h : ∀ c ∈ cands, (composeOne w fs c).isOk = true) :
    ∃ out, investorsWithMessages w fs cands = .ok out ∧
      out.map (fun m => m.scored) = cands ∧
      ∀ (i : Nat) (c : ScoredInvestor), cands[i]? = some c →
        ∃ content, w.chatCreate (messagePrompt fs c) = .ok content ∧
          out[i]? = some (⟨c, personalizedMessageOfContent content⟩ : MessagedInvestor) := by
  rcases composeAll_positions w fs cands h with ⟨out, hok, hlen, hpos⟩
  refine ⟨out, hok, ?_, hpos⟩
  apply List.ext_getElem?
  intro j
  rw [List.getElem?_map]
  by_cases hj : j < cands.length
  · obtain ⟨c, hc⟩ : ∃ c, cands[j]? = some c :=
      ⟨cands[j], (List.getElem?_eq_getElem hj)⟩
    rcases hpos j c hc with ⟨content, hch, ho⟩
    rw [ho, hc]
    rfl
  · rw [List.getElem?_eq_none (by rw [hlen]; exact Nat.le_of_not_lt hj),
      List.getElem?_eq_none (Nat.le_of_not_lt hj)]
    rfl

/-- C1 witness: with a null-content chat response, the single candidate is
retained with the empty string as its message. -/
theorem composer_empty_content_isolated_witness :
    (∀ c ∈ [(⟨invA, (1 : Rat)⟩ : ScoredInvestor)],
        (composeOne wNullContent sOK c).isOk = true) ∧
    (∃ out, investorsWithMessages wNullContent sOK [⟨invA, (1 : Rat)⟩] = .ok out ∧
      out.map (fun m => m.scored) = [(⟨invA, (1 : Rat)⟩ : ScoredInvestor)] ∧
      ∀ (i : Nat) (c : ScoredInvestor),
          ([(⟨invA, (1 : Rat)⟩ : ScoredInvestor)])[i]? = some c →
        ∃ content, wNullContent.chatCreate (messagePrompt sOK c) = .ok content ∧
          out[i]? = some (⟨c, personalizedMessageOfContent content⟩ : MessagedInvestor)) :=
  ⟨by decide,
   composer_empty_content_isolated wNullContent sOK [⟨invA, (1 : Rat)⟩] (by decide)⟩

/-- C5: an input whose free-text fields trim to empty or whose industry
list is empty is rejected with the invalid-input error before any
external call is made (all call counts are zero). -/
theorem invalid_input_rejected (w : World) (args : FounderArgs)
    (h : jsTrim args.aboutYou = "" ∨ jsTrim args.aboutStartup = "" ∨
         args.selectedIndustries = []) :
    ∃ m, findRelevantInvestors w args = (.error (.invalidInput m), Calls.zero) := by
  by_cases htxt : jsTrim args.aboutYou = "" ∨ jsTrim args.aboutStartup = ""
  · exact ⟨"Both 'about you' and 'about startup' fields are required",
      by rw [findRelevantInvestors, if_pos htxt]⟩
  · rcases h with h | h | h
    · exact absurd (Or.inl h) htxt
    · exact absurd (Or.inr h) htxt
    · refine ⟨"At least one industry must be selected", ?_⟩
      rw [findRelevantInvestors, if_neg htxt, if_pos (by simp [h])]

/-- C5 witness: the whitespace-only `about_you` input is rejected with
zero external calls. -/
theorem invalid_input_rejected_witness :
    (jsTrim argsEmptyYou.aboutYou = "" ∨ jsTrim argsEmptyYou.aboutStartup = "" ∨
      argsEmptyYou.selectedIndustries = []) ∧
    (∃ m, findRelevantInvestors wHappy argsEmptyYou =
      (.error (.invalidInput m), Calls.zero)) :=
  ⟨Or.inl (by decide),
   invalid_input_rejected wHappy argsEmptyYou (Or.inl (by decide))⟩

/-- C3: a non-schema extraction failure is fatal: the original error
propagates (tagged as an extraction failure) and no embedding, search,
lookup or generation call runs. -/
theorem nonschema_extraction_fatal (w : World) (args : FounderArgs) (e : JsError)
    (htxt : ¬(jsTrim args.aboutYou = "" ∨ jsTrim args.aboutStartup = ""))
    (hind : ¬(args.selectedIndustries.length = 0))
    (hkey : jsTruthy w.openaiApiKey = true)
    (hgen : w.generateObject (extractionPrompt args) = .error e)
    (hschema : jsIncludes e.message "did not match schema" = false) :
    findRelevantInvestors w args =
      (.error (.extractionFailed e), ⟨1, 0, 0, 0, 0⟩) := by
  have hind2 : ¬args.selectedIndustries = [] := by
    intro hnil
    exact hind (by simp [hnil])
  simp [findRelevantInvestors, extractStep, hgen, hschema, hkey, if_neg htxt, hind2]

/-- C3 witness: a quota error aborts the concrete pipeline with only the
extraction call made. -/
theorem nonschema_extraction_fatal_witness :
    (¬(jsTrim argsOK.aboutYou = "" ∨ jsTrim argsOK.aboutStartup = "")) ∧
    (¬(argsOK.selectedIndustries.length = 0)) ∧
    jsTruthy wQuota.openaiApiKey = true ∧
    wQuota.generateObject (extractionPrompt argsOK) = .error ⟨"429 insufficient quota"⟩ ∧
    jsIncludes (JsError.mk "429 insufficient quota").message "did not match schema" = false ∧
    findRelevantInvestors wQuota argsOK =
      (.error (.extractionFailed ⟨"429 insufficient quota"⟩), ⟨1, 0, 0, 0, 0⟩) :=
  ⟨by decide, by decide, by decide, rfl, by decide,
   nonschema_extraction_fatal wQuota argsOK ⟨"429 insufficient quota"⟩
     (by decide) (by decide) (by decide) rfl (by decide)⟩

/-- C2 (amended): a schema-validation failure in extraction is recovered
locally: the pipeline continues into stages 2-5 with the deterministic
fallback summary, whose text is the template string built from the raw
input fields truncated to 500 characters (not to the schema's declared
800-character maximum), with placeholder strengths and traction and stage
`seed`. -/
theorem schema_failure_uses_fallback (w : World) (args : FounderArgs) (e : JsError)
    (htxt : ¬(jsTrim args.aboutYou = "" ∨ jsTrim args.aboutStartup = ""))
    (hind : ¬(args.selectedIndustries.length = 0))
    (hkey : jsTruthy w.openaiApiKey = true)
    (hgen : w.generateObject (extractionPrompt args) = .error e)
    (hschema : jsIncludes e.message "did not match schema" = true) :
    findRelevantInvestors w args = afterSummary w args (fallbackSummary args) ∧
    (fallbackSummary args).summary = jsSlice0 (fallbackBase args) 500 ∧
    (fallbackSummary args).stage = .seed ∧
    (fallbackSummary args).key_strengths =
      ["Domain expertise", "Technical skills", "Market understanding"] ∧
    (fallbackSummary args).traction_highlights =
      ["Building product", "Early customer interest"] := by
  have hind2 : ¬args.selectedIndustries = [] := by
    intro hnil
    exact hind (by simp [hnil])
  refine ⟨?_, rfl, rfl, rfl, rfl⟩
  simp [findRelevantInvestors, extractStep, hgen, hschema, hkey, if_neg htxt, hind2]

/-- C2 witness: with a stubbed schema-validation failure the concrete
pipeline proceeds through the later stages on the fallback summary. -/
theorem schema_failure_uses_fallback_witness :
    (¬(jsTrim argsOK.aboutYou = "" ∨ jsTrim argsOK.aboutStartup = "")) ∧
    jsIncludes (JsError.mk "response did not match schema").message
      "did not match schema" = true ∧
    (findRelevantInvestors wSchemaFail argsOK =
        afterSummary wSchemaFail argsOK (fallbackSummary argsOK) ∧
      (fallbackSummary argsOK).summary = jsSlice0 (fallbackBase argsOK) 500 ∧
      (fallbackSummary argsOK).stage = .seed ∧
      (fallbackSummary argsOK).key_strengths =
        ["Domain expertise", "Technical skills", "Market understanding"] ∧
      (fallbackSummary argsOK).traction_highlights =
        ["Building product", "Early customer interest"]) :=
  ⟨by decide, by decide,
   schema_failure_uses_fallback wSchemaFail argsOK ⟨"response did not match schema"⟩
     (by decide) (by decide) (by decide) rfl (by decide)⟩

set_option maxRecDepth 8000 in
/-- C2 counterexample: on a long input the fallback summary is the base
string truncated to 500 characters, which differs from truncation to the
schema's declared maximum length (800) that the claim asserts. -/
theorem fallback_truncation_counterexample :
    extractStep wSchemaFail argsLong = .ok (fallbackSummary argsLong) ∧
    (fallbackSummary argsLong).summary ≠ jsSlice0 (fallbackBase argsLong) summaryMaxLength := by
  refine ⟨rfl, ?_⟩
  decide

/-- C4 (amended): the embedding step requests dimensionality 1024 but
forwards the provider's first vector unchanged, performing no length
validation (there is no dimension-mismatch failure in the code). -/
theorem embed_no_dimension_check (w : World) (text : String)
    (v : List Rat) (rest : List (List Rat))
    (h : w.embeddingsCreate ⟨"text-embedding-3-large", jsTrim text, 1024⟩ = .ok (v :: rest)) :
    embedStep w text = .ok v := by
  simp [embedStep, h]

/-- C4 witness: the pass-through holds on the concrete short-vector
world. -/
theorem embed_no_dimension_check_witness :
    wShortVec.embeddingsCreate
        ⟨"text-embedding-3-large", jsTrim "startup text", 1024⟩ =
      .ok ([(1 : Rat), 2, 3] :: []) ∧
    embedStep wShortVec "startup text" = .ok [(1 : Rat), 2, 3] :=
  ⟨rfl, embed_no_dimension_check wShortVec "startup text" [(1 : Rat), 2, 3] [] rfl⟩

/-- C4 counterexample: a provider response of length 3 (not 1024) is
accepted by the embed step and the pipeline proceeds through vector
search, hydration and generation with it, instead of failing with a
dimension mismatch. -/
theorem embed_mismatch_counterexample :
    embedStep wShortVec "startup text" = .ok [(1 : Rat), 2, 3] ∧
    ¬(([(1 : Rat), 2, 3] : List Rat).length = 1024) ∧
    (findRelevantInvestors wShortVec argsOK).2 = ⟨1, 1, 1, 4, 1⟩ := by
  refine ⟨rfl, by decide, ?_⟩
  rfl

/-- A truthy match guarantees the `existing` lookup finds a document. -/
theorem lookupExisting_isSome_of_truthyMatches (docs : List Investor) (args : UpsertArgs)
    (h : truthyMatches docs args) : (lookupExisting docs args).isSome = true := by
  unfold lookupExisting
  cases hbu : lookupByUrlArg docs args with
  | some d => simp
  | none =>
    show (lookupByUsernameArg docs args).isSome = true
    rcases h with ⟨t, ht, hne, hfind⟩ | ⟨u, hu, hne, hfind⟩
    · exfalso
      simp only [lookupByUrlArg, ht, if_neg hne] at hbu
      rw [hbu] at hfind
      simp at hfind
    · simp only [lookupByUsernameArg, hu, if_neg hne]
      cases hfu : findByTwitter docs ("https://twitter.com/" ++ u) with
      | some d => simp
      | none =>
        rcases hfind with hf | hf
        · rw [hfu] at hf; simp at hf
        · simpa using hf

/-- Whatever the URL-block lookup returns is a document of the table. -/
theorem lookupByUrlArg_mem (docs : List Investor) (args : UpsertArgs) (d : Investor)
    (h : lookupByUrlArg docs args = some d) : d ∈ docs := by
  unfold lookupByUrlArg at h
  split at h
  · split at h
    · cases h
    · exact List.mem_of_find?_eq_some h
  · cases h

/-- Whatever the username-block lookup returns is a document of the
table. -/
theorem lookupByUsernameArg_mem (docs : List Investor) (args : UpsertArgs) (d : Investor)
    (h : lookupByUsernameArg docs args = some d) : d ∈ docs := by
  unfold lookupByUsernameArg at h
  split at h
  · split at h
    · cases h
    · split at h
      · rename_i d'' hfu
        cases h
        exact List.mem_of_find?_eq_some hfu
      · exact List.mem_of_find?_eq_some h
  · cases h

/-- Whatever the `existing` lookup returns is a document of the table. -/
theorem lookupExisting_mem (docs : List Investor) (args : UpsertArgs) (d : Investor)
    (h : lookupExisting docs args = some d) : d ∈ docs := by
  cases hbu : lookupByUrlArg docs args with
  | some d' =>
    have hlk : lookupExisting docs args = some d' := by
      unfold lookupExisting
      rw [hbu]
    have hd : d' = d := Option.some.inj (hlk.symm.trans h)
    exact hd ▸ lookupByUrlArg_mem docs args d' hbu
  | none =>
    have hlk : lookupExisting docs args = lookupByUsernameArg docs args := by
      unfold lookupExisting
      rw [hbu]
    exact lookupByUsernameArg_mem docs args d ((hlk.symm.trans h))

/-- When the lookup succeeds, the upsert patches in place: the table's
length is unchanged. -/
theorem upsert_keeps_length (st : InvestorsTable) (args : UpsertArgs)
    (h : (lookupExisting st.docs args).isSome = true) :
    (upsertByTwitter st args).1.docs.length = st.docs.length := by
  obtain ⟨d, hd⟩ := Option.isSome_iff_exists.mp h
  simp [upsertByTwitter, hd]

/-- After any upsert the table holds a document carrying the call's
`twitter_url` and `username` (the patched or the inserted one). -/
theorem upsert_has_identifiers (st : InvestorsTable) (args : UpsertArgs) :
    ∃ d ∈ (upsertByTwitter st args).1.docs,
      d.twitter_url = args.twitter_url ∧ d.username = args.username := by
  unfold upsertByTwitter
  cases hl : lookupExisting st.docs args with
  | some existing =>
    refine ⟨patchInvestor existing args, ?_, rfl, rfl⟩
    have hmem := lookupExisting_mem st.docs args existing hl
    have hmap := List.mem_map_of_mem
      (fun d => if d._id = existing._id then patchInvestor d args else d) hmem
    simpa using hmap
  | none =>
    exact ⟨insertInvestor st.nextId args, by simp, rfl, rfl⟩

/-- A stored document carrying the call's identifiers yields a truthy
match whenever one of those identifiers is truthy. -/
theorem truthyMatches_of_doc (docs : List Investor) (args : UpsertArgs) (d : Investor)
    (hd : d ∈ docs)
    (hids : d.twitter_url = args.twitter_url ∧ d.username = args.username)
    (htruthy : jsTruthy args.twitter_url = true ∨ jsTruthy args.username = true) :
    truthyMatches docs args := by
  rcases htruthy with ht | ht
  · cases htw : args.twitter_url with
    | none => rw [htw] at ht; simp [jsTruthy] at ht
    | some t =>
      have hne : ¬t = "" := by
        rw [htw] at ht
        simpa [jsTruthy] using ht
      refine Or.inl ⟨t, htw, hne, ?_⟩
      simp only [findByTwitter]
      apply List.find?_isSome.mpr
      refine ⟨d, hd, ?_⟩
      rw [hids.1, htw]
      simp
  · cases hun : args.username with
    | none => rw [hun] at ht; simp [jsTruthy] at ht
    | some u =>
      have hne : ¬u = "" := by
        rw [hun] at ht
        simpa [jsTruthy] using ht
      refine Or.inr ⟨u, hun, hne, Or.inr ?_⟩
      simp only [findByUsername]
      apply List.find?_isSome.mpr
      refine ⟨d, hd, ?_⟩
      rw [hids.2, hun]
      simp

/-- C10 (amended): a call whose non-empty `twitter_url`, or non-empty
`username` (directly or via the URL constructed from it), matches an
existing record patches an existing record and returns its id without
inserting; repeating the same call still leaves the table size unchanged,
so upserting the same investor twice never creates a duplicate.  (With an
empty-string identifier the match is skipped by JS truthiness — see the
counterexample.) -/
theorem upsert_no_duplicate (st : InvestorsTable) (args : UpsertArgs)
    (h : truthyMatches st.docs args) :
    (∃ d ∈ st.docs, (upsertByTwitter st args).2 = d._id) ∧
    (upsertByTwitter st args).1.docs.length = st.docs.length ∧
    (upsertByTwitter (upsertByTwitter st args).1 args).1.docs.length = st.docs.length := by
  have hsome := lookupExisting_isSome_of_truthyMatches st.docs args h
  obtain ⟨d, hd⟩ := Option.isSome_iff_exists.mp hsome
  have hlen1 : (upsertByTwitter st args).1.docs.length = st.docs.length :=
    upsert_keeps_length st args hsome
  refine ⟨⟨d, lookupExisting_mem st.docs args d hd, by simp [upsertByTwitter, hd]⟩,
    hlen1, ?_⟩
  have htruthy : jsTruthy args.twitter_url = true ∨ jsTruthy args.username = true := by
    rcases h with ⟨t, ht, hne, _⟩ | ⟨u, hu, hne, _⟩
    · exact Or.inl (by simp [jsTruthy, ht, hne])
    · exact Or.inr (by simp [jsTruthy, hu, hne])
  obtain ⟨d2, hd2mem, hd2ids⟩ := upsert_has_identifiers st args
  have h2 : truthyMatches (upsertByTwitter st args).1.docs args :=
    truthyMatches_of_doc _ args d2 hd2mem hd2ids htruthy
  have hsome2 := lookupExisting_isSome_of_truthyMatches _ args h2
  have hlen2 := upsert_keeps_length (upsertByTwitter st args).1 args hsome2
  rw [hlen2, hlen1]

/-- C10 witness: the no-duplicate facts hold for a concrete re-upsert of
`invA` by its twitter URL. -/
theorem upsert_no_duplicate_witness :
    truthyMatches stA.docs argsUpA ∧
    ((∃ d ∈ stA.docs, (upsertByTwitter stA argsUpA).2 = d._id) ∧
     (upsertByTwitter stA argsUpA).1.docs.length = stA.docs.length ∧
     (upsertByTwitter (upsertByTwitter stA argsUpA).1 argsUpA).1.docs.length =
       stA.docs.length) :=
  ⟨Or.inl ⟨"https://twitter.com/alice", rfl, by decide, by decide⟩,
   upsert_no_duplicate stA argsUpA
     (Or.inl ⟨"https://twitter.com/alice", rfl, by decide, by decide⟩)⟩

/-- C10 counterexample: an existing record whose `twitter_url` is the
empty string and a call carrying that same `twitter_url` satisfy the
claim's match antecedent, yet JS truthiness skips the lookup: a new
record is inserted (the table grows) and the fresh id, not the matching
record's id, is returned. -/
theorem upsert_empty_twitter_counterexample :
    claimMatches stDup.docs argsDup ∧
    upsertByTwitter stDup argsDup = (⟨[invDup, insertInvestor 1 argsDup], 2⟩, 1) ∧
    (upsertByTwitter stDup argsDup).1.docs.length = stDup.docs.length + 1 := by
  exact ⟨Or.inl ⟨"", rfl, by decide⟩, rfl, rfl⟩
